import Mathlib

/-!
Shallow embedding of `SimConnect/P3DSimConnect.py` (class `P3DSimConnect`),
the connection-lifecycle / request-correlation bridge of the repository,
together with theorems settling the frozen claims about it.

Modelling conventions:
* Python attributes of the bridge object become fields of `BridgeState`.
* A caller-supplied request descriptor (`_Request`) is a heap object in
  Python; we model the heap as `BridgeState.store : List Descriptor` and a
  descriptor reference as its index in that list, so that the aliasing
  between `self.Requests[rid]` and the caller's object is explicit.
* `hasattr(obj, A)` / `obj.A = v` for the dynamically attached attributes
  `DATA_DEFINITION_ID`, `DATA_REQUEST_ID`, `outData` is modelled with
  `Option` fields (`none` = attribute absent).
* Calls into the host library (`self.simconnect.…`) are recorded in an
  append-only trace `BridgeState.calls : List HostCall`.
* The only float literal the modelled code passes is `0.0` (the epsilon of
  `AddToDataDefinition`), which is exactly representable; we model it as
  `(0 : Rat)`.
* `ReceiveMessage()` pumps queued host notifications into the `on_recv_*`
  handlers; we model the queue by an environment `env : Nat → List Notif`
  giving the batch of notifications dispatched by the n-th pump call.
-/

namespace P3DSimConnect

/-- Python module constant `SIMCONNECT_UNUSED = 0xFFFFFFFF`. -/
def SIMCONNECT_UNUSED : Nat := 0xFFFFFFFF

/-- Python module constant `SIMCONNECT_OBJECT_ID_USER = 0`. -/
def SIMCONNECT_OBJECT_ID_USER : Nat := 0

/-- The `ID` wrapper class (`ID(val)` with field `value`). -/
structure ID where
  value : Nat
deriving DecidableEq, Repr

/-- The only member of the host datatype enum the modelled code uses. -/
inductive SC_DATATYPE where
  | FLOAT64
deriving DecidableEq, Repr

/-- A dynamically generated .NET enum type, as produced by
`_create_event_enum`: a name and its list of (literal name, literal value)
members. -/
structure EnumType where
  name : String
  literals : List (String × Nat)
deriving DecidableEq, Repr

/-- The carrier value produced by `Enum.ToObject`: either a member of the
dynamically generated enum type, or (fallback) a member of the host enum
`SIMCONNECT_PERIOD` used as carrier. -/
inductive CarrierValue where
  | dyn (t : EnumType) (v : Nat)
  | period (v : Nat)
deriving DecidableEq, Repr

/-- `_create_event_enum`: builds the dynamic enum `ClientEventID` with
literals `EVENT_0 … EVENT_99` (the `for i in range(100)` loop); the
surrounding `try/except` returns `None` when the .NET emit machinery fails,
modelled by the `canCreate` flag. -/
def _create_event_enum (canCreate : Bool) : Option EnumType :=
  if canCreate then
    some { name := "ClientEventID"
           literals := (List.range 100).map (fun i => ("EVENT_" ++ toString i, i)) }
  else
    none

/-- The `__init__` step
`if P3DSimConnect._EventEnumType is None: _EventEnumType = self._create_event_enum()`
acting on the class-level (process-wide) slot `_EventEnumType`. -/
def initEventEnumType (canCreate : Bool) (g : Option EnumType) : Option EnumType :=
  match g with
  | some t => some t
  | none => _create_event_enum canCreate

/-- `Enum.ToObject` as used throughout the class: wrap a raw integer handle
in the shared dynamic enum type when it exists, else fall back to the host
enum `SIMCONNECT_PERIOD` as carrier
(`if P3DSimConnect._EventEnumType is not None: … else: …`). -/
def toCarrier (g : Option EnumType) (v : Nat) : CarrierValue :=
  match g with
  | some t => CarrierValue.dyn t v
  | none => CarrierValue.period v

/-- One host-library call emitted by the bridge (trace event). -/
inductive HostCall where
  | addToDataDefinition (defId : Nat) (datumName : String) (units : String)
      (datumType : SC_DATATYPE) (epsilon : Rat) (datumId : Nat)
  | mapClientEventToSimEvent (carrier : CarrierValue) (name : String)
  | requestDataOnSimObjectType (reqCarrier defCarrier : CarrierValue) (objectId : Nat)
  | transmitClientEvent (objectId : Nat) (evtCarrier : CarrierValue) (data : Nat)
      (groupCarrier : CarrierValue)
  | dispose
deriving DecidableEq, Repr

/-- A caller-supplied request descriptor (`_Request`).  `definitions` is the
list of `(variable name, unit)` pairs (the third component of the Python
triples is never read by the code).  The three `Option` fields model the
dynamically attached attributes. -/
structure Descriptor where
  definitions : List (String × String)
  DATA_DEFINITION_ID : Option ID := none
  DATA_REQUEST_ID : Option ID := none
  outData : Option Int := none
deriving DecidableEq, Repr

/-- The bridge instance state (the `self.*` attributes touched by the
modelled methods).  `store` is the descriptor heap; `Requests` is the dict
`self.Requests` mapping a request id to a descriptor reference (store
index). -/
structure BridgeState where
  store : List Descriptor := []
  Requests : List (Nat × Nat) := []
  quit : Nat := 0
  ok : Bool := false
  simconnect : Option Unit := none
  _def_id_counter : Nat := 0
  _req_id_counter : Nat := 0
  _evt_id_counter : Nat := 0
  _group_id_counter : Nat := 0
  calls : List HostCall := []
deriving DecidableEq, Repr

/-- The field values set by `__init__` (before any connect). -/
def initState : BridgeState := {}

/-- Python dict assignment `d[k] = v` on an association list. -/
def dictSet (k v : Nat) : List (Nat × Nat) → List (Nat × Nat)
  | [] => [(k, v)]
  | (k', v') :: rest => if k' = k then (k, v) :: rest else (k', v') :: dictSet k v rest

/-- Python dict lookup `d[k]` / `k in d` on an association list. -/
def dictGet (k : Nat) : List (Nat × Nat) → Option Nat
  | [] => none
  | (k', v') :: rest => if k' = k then some v' else dictGet k rest

/-- Replace the descriptor at heap index `i` (models mutating the shared
Python object). -/
def storeSet (i : Nat) (d : Descriptor) : List Descriptor → List Descriptor
  | [] => []
  | x :: rest =>
    match i with
    | 0 => d :: rest
    | n + 1 => x :: storeSet n d rest

/-- The descriptor currently at heap index `i`. -/
def descAt (s : BridgeState) (i : Nat) : Option Descriptor :=
  s.store[i]?

/-- The `outData` slot of the descriptor at heap index `i`. -/
def outDataAt (s : BridgeState) (i : Nat) : Option Int :=
  match descAt s i with
  | some d => d.outData
  | none => none

/-- `new_def_id`: increment `self._def_id_counter` and return it wrapped in
`ID`. -/
def new_def_id (s : BridgeState) : ID × BridgeState :=
  let c := s._def_id_counter + 1
  (⟨c⟩, { s with _def_id_counter := c })

/-- `new_request_id`: increment `self._req_id_counter` and return it wrapped
in `ID`. -/
def new_request_id (s : BridgeState) : ID × BridgeState :=
  let c := s._req_id_counter + 1
  (⟨c⟩, { s with _req_id_counter := c })

/-- `map_to_sim_event(name)`: read the event counter, post-increment it,
wrap the raw id via the shared enum type (`g`), emit one
`MapClientEventToSimEvent` host call, and return the raw id. -/
def map_to_sim_event (g : Option EnumType) (name : String) (s : BridgeState) :
    Nat × BridgeState :=
  let evt_id := s._evt_id_counter
  let s1 := { s with _evt_id_counter := s._evt_id_counter + 1 }
  let evt_enum := toCarrier g evt_id
  (evt_id, { s1 with calls := s1.calls ++ [HostCall.mapClientEventToSimEvent evt_enum name] })

/-- `exit()`: set the quit flag; if a channel is held, dispose it and clear
the reference. -/
def exit (s : BridgeState) : BridgeState :=
  let s1 := { s with quit := 1 }
  match s1.simconnect with
  | some _ => { s1 with simconnect := none, calls := s1.calls ++ [HostCall.dispose] }
  | none => s1

/-- Number of `Dispose` calls in a host-call trace. -/
def disposeCount (calls : List HostCall) : Nat :=
  (calls.filter (fun c => c = HostCall.dispose)).length

/-- Number of `MapClientEventToSimEvent` calls in a host-call trace. -/
def mapEventCallCount (calls : List HostCall) : Nat :=
  (calls.filter (fun c =>
    match c with
    | HostCall.mapClientEventToSimEvent _ _ => true
    | _ => false)).length

/-- An interleaved sequence of allocator calls (for the independence claim
about `new_def_id` / `new_request_id`). -/
inductive AllocOp where
  | defOp
  | reqOp
deriving DecidableEq, Repr

/-- Run a sequence of allocator calls, collecting the returned `ID` values
tagged with which allocator produced them. -/
def runAllocs : List AllocOp → BridgeState → List (AllocOp × Nat) × BridgeState
  | [], s => ([], s)
  | AllocOp.defOp :: rest, s =>
    let (i, s') := new_def_id s
    let (out, s'') := runAllocs rest s'
    ((AllocOp.defOp, i.value) :: out, s'')
  | AllocOp.reqOp :: rest, s =>
    let (i, s') := new_request_id s
    let (out, s'') := runAllocs rest s'
    ((AllocOp.reqOp, i.value) :: out, s'')

/-- The values returned by one kind of allocator in a tagged run. -/
def idsOfKind (k : AllocOp) (out : List (AllocOp × Nat)) : List Nat :=
  (out.filter (fun x => x.1 = k)).map (fun x => x.2)

/-- The `AddToDataDefinition` host call emitted for one variable of a
descriptor registered under definition id `defId` — datum type
`SIMCONNECT_DATATYPE.FLOAT64`, epsilon `0.0`, datum id `SIMCONNECT_UNUSED`. -/
def addDefCall (defId : Nat) (nu : String × String) : HostCall :=
  HostCall.addToDataDefinition defId nu.1 nu.2 SC_DATATYPE.FLOAT64 0 SIMCONNECT_UNUSED

/-- The `for definition in _Request.definitions:` loop of `request_data`,
with a fault oracle: `failAt = some k` means the k-th
`AddToDataDefinition` host call raises (a `HostCallError` from the managed
layer).  Returns the calls emitted before the failure and whether the loop
raised; on a raise the loop stops, exactly like a propagating Python
exception. -/
def addVarsLoop (failAt : Option Nat) (defId : Nat) :
    List (String × String) → Nat → List HostCall × Bool
  | [], _ => ([], false)
  | nu :: rest, k =>
    if failAt = some k then ([], true)
    else
      let (calls, raised) := addVarsLoop failAt defId rest (k + 1)
      (addDefCall defId nu :: calls, raised)

/-- `request_data(_Request)` with the fault oracle threaded through the
registration loop.  Returns the post-state and whether an exception
propagated out.  Mirrors the Python statement order: the
`DATA_DEFINITION_ID` attribute is assigned *before* the registration loop,
so a mid-loop failure leaves the attribute (and the already-emitted calls)
in place; the request-id branch, the `outData = None` clear and the
`RequestDataOnSimObjectType` call only run if no exception was raised. -/
def request_data_exc (g : Option EnumType) (failAt : Option Nat) (i : Nat)
    (s : BridgeState) : BridgeState × Bool :=
  match descAt s i with
  | none => (s, false)
  | some d =>
    let (d1, s1, raised) :=
      match d.DATA_DEFINITION_ID with
      | none =>
        let (defId, sa) := new_def_id s
        let d' := { d with DATA_DEFINITION_ID := some defId }
        let (newCalls, raised) := addVarsLoop failAt defId.value d.definitions 0
        (d', { sa with calls := sa.calls ++ newCalls }, raised)
      | some _ => (d, s, false)
    if raised then
      (( { s1 with store := storeSet i d1 s1.store } : BridgeState), true)
    else
      let (d2, s2) :=
        match d1.DATA_REQUEST_ID with
        | none =>
          let (reqId, sb) := new_request_id s1
          let d' := { d1 with DATA_REQUEST_ID := some reqId }
          (d', { sb with Requests := dictSet reqId.value i sb.Requests })
        | some _ => (d1, s1)
      let d3 := { d2 with outData := none }
      let s3 := { s2 with store := storeSet i d3 s2.store }
      let req_enum := toCarrier g (d3.DATA_REQUEST_ID.map ID.value).iget
      let def_enum := toCarrier g (d3.DATA_DEFINITION_ID.map ID.value).iget
      (( { s3 with calls := s3.calls ++
            [HostCall.requestDataOnSimObjectType req_enum def_enum 0] } : BridgeState),
       false)

/-- `request_data(_Request)` on the non-failing host (every host call
succeeds). -/
def request_data (g : Option EnumType) (i : Nat) (s : BridgeState) : BridgeState :=
  (request_data_exc g none i s).1

/-- `on_recv_simobject_data`: look the carried `dwRequestID` up in
`self.Requests`; if a pending entry exists write `dwData` into its
`outData` slot, otherwise do nothing. -/
def on_recv_simobject_data (reqId : Nat) (v : Int) (s : BridgeState) : BridgeState :=
  match dictGet reqId s.Requests with
  | some i =>
    match descAt s i with
    | some d => { s with store := storeSet i { d with outData := some v } s.store }
    | none => s
  | none => s

/-- An inbound host notification dispatched by `ReceiveMessage`. -/
inductive Notif where
  | simobjectData (reqId : Nat) (value : Int)
  | openRecv
  | quitRecv
deriving DecidableEq, Repr

/-- Dispatch one notification to its `on_recv_*` handler:
`on_recv_open` sets `ok = True`; `on_recv_quit` sets `quit = 1, ok = False`
(it also writes a `connected` attribute that is never initialized nor read
elsewhere, omitted here); data deliveries go to `on_recv_simobject_data`. -/
def dispatch (n : Notif) (s : BridgeState) : BridgeState :=
  match n with
  | Notif.simobjectData r v => on_recv_simobject_data r v s
  | Notif.openRecv => { s with ok := true }
  | Notif.quitRecv => { s with quit := 1, ok := false }

/-- One `ReceiveMessage()` call: dispatch the queued batch of
notifications. -/
def receiveMessage (batch : List Notif) (s : BridgeState) : BridgeState :=
  batch.foldl (fun st n => dispatch n st) s

/-- The `while _Request.outData is None and attempts < 100:` loop of
`get_data`.  `fuel` is `100 - attempts`; each iteration pumps one batch
(`ReceiveMessage` + 10 ms sleep) and increments `attempts`.  Returns the
final state and the number of pump iterations performed. -/
def get_data_loop (env : Nat → List Notif) (i : Nat) :
    Nat → Nat → BridgeState → BridgeState × Nat
  | attempts, 0, s => (s, attempts)
  | attempts, fuel + 1, s =>
    if (outDataAt s i).isSome then (s, attempts)
    else get_data_loop env i (attempts + 1) fuel (receiveMessage (env attempts) s)

/-- `get_data(_Request)`: issue the fetch, poll at most 100 times, and
return `False` iff the result slot is still unset (never an exception).
Also returns the number of pump iterations used. -/
def get_data (g : Option EnumType) (env : Nat → List Notif) (i : Nat)
    (s : BridgeState) : Bool × BridgeState × Nat :=
  let s1 := request_data g i s
  let (s2, att) := get_data_loop env i 0 100 s1
  ((outDataAt s2 i).isSome, s2, att)

/-- `connect()` after a successful channel construction: the bounded
confirmation wait `while not self.ok and (time.time() - start) < timeout:`
with `timeout = 3.0` and a `0.1 s` sleep per iteration, modelled as at most
30 pump iterations. -/
def connect_loop (env : Nat → List Notif) : Nat → Nat → BridgeState → BridgeState
  | _, 0, s => s
  | step, fuel + 1, s =>
    if s.ok then s
    else connect_loop env (step + 1) fuel (receiveMessage (env step) s)

/-- The outcome of a `connect()` call: final state, whether
`ConnectionError` was raised, and whether the confirmation-timeout warning
was logged. -/
structure ConnectResult where
  state : BridgeState
  raisedError : Bool
  warned : Bool
deriving DecidableEq, Repr

/-- `connect()`: construct the channel (`chanOk` says whether the host
constructor succeeds), pump for at most 3 s waiting for `OnRecvOpen`, and
on expiry log a warning and fall through — the `self.ok = True` on the
timeout path is commented out in the source, so `ok` is left untouched
there.  A constructor failure is re-raised as `ConnectionError`. -/
def connect (env : Nat → List Notif) (chanOk : Bool) (s : BridgeState) : ConnectResult :=
  if chanOk then
    let s1 := { s with simconnect := some () }
    let s2 := connect_loop env 0 30 s1
    if s2.ok then { state := s2, raisedError := false, warned := false }
    else { state := s2, raisedError := false, warned := true }
  else
    { state := s, raisedError := true, warned := false }

/-! ### `_load_dll` candidate ordering -/

/-- The sort key Python uses in the no-version branch:
`key=lambda x: x[0] if x[0] else 0` (both `None` and `0` map to `0`). -/
def versionKey (v : Option Nat) : Nat :=
  match v with
  | some n => if n = 0 then 0 else n
  | none => 0

/-- Truthiness of the `version` argument (`if version:`). -/
def versionTruthy (v : Option Nat) : Bool :=
  match v with
  | some n => !(n = 0)
  | none => false

/-- Stable insertion into a list sorted by descending `versionKey`
(a strictly larger key moves in front; equal keys keep arrival order),
modelling Python's stable `sorted(..., reverse=True)`. -/
def insertDesc (x : Option Nat × String) :
    List (Option Nat × String) → List (Option Nat × String)
  | [] => [x]
  | y :: ys =>
    if versionKey y.1 < versionKey x.1 then x :: y :: ys
    else y :: insertDesc x ys

/-- Stable sort by descending `versionKey`. -/
def sortDescVersion (sp : List (Option Nat × String)) : List (Option Nat × String) :=
  sp.foldl (fun acc x => insertDesc x acc) []

/-- One appending pass over `search_paths`:
`for v, p in search_paths: if pred (v, p) and p not in ordered_paths:
ordered_paths.append(p)` (the membership check against the growing list is
kept). -/
def passAppend (pred : Option Nat × String → Bool) :
    List (Option Nat × String) → List String → List String
  | [], acc => acc
  | x :: rest, acc =>
    if pred x ∧ x.2 ∉ acc then passAppend pred rest (acc ++ [x.2])
    else passAppend pred rest acc

/-- The `# Re-order based on requested version` block of `_load_dll`,
as a pure function from the requested version and the tagged
`search_paths` to `ordered_paths`.  With a (truthy) requested version:
first every v4-tagged path when version 5 was requested (no membership
check in the source for this pass), then exact version matches not already
present, then everything else not already present; with no version, all
candidates sorted stably by descending version. -/
def order_paths (version : Option Nat) (sp : List (Option Nat × String)) :
    List String :=
  if versionTruthy version then
    let v := version.iget
    let o1 :=
      if v = 5 then (sp.filter (fun x => x.1 = some 4)).map (fun x => x.2) else []
    let o2 := passAppend (fun x => x.1 = some v) sp o1
    passAppend (fun _ => true) sp o2
  else
    (sortDescVersion sp).map (fun x => x.2)

/-- Recognizer for `AddToDataDefinition` trace entries. -/
def isAddDef : HostCall → Bool
  | HostCall.addToDataDefinition _ _ _ _ _ _ => true
  | _ => false

/-- The schema-registration calls contained in a host-call trace. -/
def addDefCallsOf (calls : List HostCall) : List HostCall :=
  calls.filter isAddDef

/-! ### Theorems -/

theorem get?_storeSet_self {l : List Descriptor} {i : Nat} {d₀ d : Descriptor}
    (h : l[i]? = some d₀) : (storeSet i d l)[i]? = some d := by
  induction l generalizing i with
  | nil => simp at h
  | cons x xs ih =>
    cases i with
    | zero => simp [storeSet]
    | succ n =>
      simp only [List.getElem?_cons_succ] at h
      simpa [storeSet] using ih h

theorem dictGet_dictSet_self (k v : Nat) (l : List (Nat × Nat)) :
    dictGet k (dictSet k v l) = some v := by
  induction l with
  | nil => simp [dictSet, dictGet]
  | cons x xs ih =>
    obtain ⟨k', v'⟩ := x
    by_cases hk : k' = k <;> simp [dictSet, dictGet, hk, ih]

/-- On the non-failing host the registration loop emits one
`AddToDataDefinition` per variable, in order, and does not raise. -/
theorem addVarsLoop_none (defId : Nat) (defs : List (String × String)) (k : Nat) :
    addVarsLoop none defId defs k = (defs.map (addDefCall defId), false) := by
  induction defs generalizing k with
  | nil => rfl
  | cons nu rest ih => simp [addVarsLoop, ih]

/-- Canonical form of `request_data` on a descriptor not yet registered
(first fetch): allocate both ids, emit one `AddToDataDefinition` per
variable followed by the `RequestDataOnSimObjectType` call, record the
request in `Requests`, and clear the result slot. -/
theorem request_data_fresh (g : Option EnumType) (i : Nat) (s : BridgeState)
    (d : Descriptor) (h : descAt s i = some d)
    (hdef : d.DATA_DEFINITION_ID = none) (hreq : d.DATA_REQUEST_ID = none) :
    request_data g i s = { s with
      store := storeSet i { d with
          DATA_DEFINITION_ID := some ⟨s._def_id_counter + 1⟩,
          DATA_REQUEST_ID := some ⟨s._req_id_counter + 1⟩,
          outData := none } s.store,
      Requests := dictSet (s._req_id_counter + 1) i s.Requests,
      _def_id_counter := s._def_id_counter + 1,
      _req_id_counter := s._req_id_counter + 1,
      calls := s.calls ++ d.definitions.map (addDefCall (s._def_id_counter + 1)) ++
        [HostCall.requestDataOnSimObjectType (toCarrier g (s._req_id_counter + 1))
          (toCarrier g (s._def_id_counter + 1)) 0] } := by
  simp [request_data, request_data_exc, h, hdef, hreq, new_def_id, new_request_id,
    addVarsLoop_none]

/-- Canonical form of `request_data` on an already-registered descriptor:
no allocation, no schema registration — just clear the result slot and
emit the `RequestDataOnSimObjectType` call. -/
theorem request_data_registered (g : Option EnumType) (i : Nat) (s : BridgeState)
    (d : Descriptor) (di ri : ID) (h : descAt s i = some d)
    (hdef : d.DATA_DEFINITION_ID = some di) (hreq : d.DATA_REQUEST_ID = some ri) :
    request_data g i s = { s with
      store := storeSet i { d with outData := none } s.store,
      calls := s.calls ++ [HostCall.requestDataOnSimObjectType (toCarrier g ri.value)
        (toCarrier g di.value) 0] } := by
  simp [request_data, request_data_exc, h, hdef, hreq]

/-- The `DefinitionId` values produced along any interleaved allocator run
are the consecutive integers starting just above the initial counter. -/
theorem runAllocs_def_ids (ops : List AllocOp) (s : BridgeState) :
    idsOfKind AllocOp.defOp (runAllocs ops s).1 =
      List.range' (s._def_id_counter + 1) (ops.count AllocOp.defOp) := by
  induction ops generalizing s with
  | nil => simp [runAllocs, idsOfKind]
  | cons op rest ih =>
    cases op with
    | defOp =>
      simp only [runAllocs, new_def_id, idsOfKind, List.filter_cons, List.count_cons]
      have h := ih { s with _def_id_counter := s._def_id_counter + 1 }
      simp [idsOfKind] at h
      simp [h, List.range'_succ]
    | reqOp =>
      simp only [runAllocs, new_request_id, idsOfKind, List.filter_cons, List.count_cons]
      have h := ih { s with _req_id_counter := s._req_id_counter + 1 }
      simp [idsOfKind] at h
      simp [h]

/-- The `RequestId` values produced along any interleaved allocator run
are the consecutive integers starting just above the initial counter. -/
theorem runAllocs_req_ids (ops : List AllocOp) (s : BridgeState) :
    idsOfKind AllocOp.reqOp (runAllocs ops s).1 =
      List.range' (s._req_id_counter + 1) (ops.count AllocOp.reqOp) := by
  induction ops generalizing s with
  | nil => simp [runAllocs, idsOfKind]
  | cons op rest ih =>
    cases op with
    | defOp =>
      simp only [runAllocs, new_def_id, idsOfKind, List.filter_cons, List.count_cons]
      have h := ih { s with _def_id_counter := s._def_id_counter + 1 }
      simp [idsOfKind] at h
      simp [h]
    | reqOp =>
      simp only [runAllocs, new_request_id, idsOfKind, List.filter_cons, List.count_cons]
      have h := ih { s with _req_id_counter := s._req_id_counter + 1 }
      simp [idsOfKind] at h
      simp [h, List.range'_succ]

/-- C2: after a first `request_data` on descriptor `d` (heap index `i`),
`d` is registered in `Requests` under the freshly allocated request id and
its result slot is cleared; dispatching a data-delivery notification
carrying that request id and value `v` writes exactly `v` into `d`'s slot;
and dispatching a delivery whose request id is not a key of `Requests`
leaves the entire bridge state unchanged. -/
theorem C2_delivery_roundtrip (g : Option EnumType) (i : Nat) (s : BridgeState)
    (d : Descriptor) (v : Int) (h : descAt s i = some d)
    (hdef : d.DATA_DEFINITION_ID = none) (hreq : d.DATA_REQUEST_ID = none) :
    dictGet (s._req_id_counter + 1) (request_data g i s).Requests = some i ∧
    outDataAt (request_data g i s) i = none ∧
    outDataAt (on_recv_simobject_data (s._req_id_counter + 1) v (request_data g i s)) i
      = some v ∧
    (∀ (t : BridgeState) (r' : Nat) (v' : Int),
      dictGet r' t.Requests = none → on_recv_simobject_data r' v' t = t) := by
  rw [request_data_fresh g i s d h hdef hreq]
  have hstore : s.store[i]? = some d := h
  have h1 : (storeSet i { d with
      DATA_DEFINITION_ID := some ⟨s._def_id_counter + 1⟩,
      DATA_REQUEST_ID := some ⟨s._req_id_counter + 1⟩,
      outData := none } s.store)[i]? = some { d with
      DATA_DEFINITION_ID := some ⟨s._def_id_counter + 1⟩,
      DATA_REQUEST_ID := some ⟨s._req_id_counter + 1⟩,
      outData := none } := get?_storeSet_self hstore
  refine ⟨dictGet_dictSet_self _ _ _, ?_, ?_, ?_⟩
  · simp [outDataAt, descAt, h1]
  · simp only [on_recv_simobject_data, dictGet_dictSet_self, descAt, h1, outDataAt]
    simp [get?_storeSet_self h1]
  · intro t r' v' hmiss
    simp [on_recv_simobject_data, hmiss]

theorem dispatch_Requests (n : Notif) (s : BridgeState) :
    (dispatch n s).Requests = s.Requests := by
  cases n with
  | simobjectData r v =>
    simp only [dispatch, on_recv_simobject_data]
    split
    · split <;> rfl
    · rfl
  | openRecv => rfl
  | quitRecv => rfl

theorem receiveMessage_Requests (batch : List Notif) (s : BridgeState) :
    (receiveMessage batch s).Requests = s.Requests := by
  induction batch generalizing s with
  | nil => rfl
  | cons n rest ih =>
    simp only [receiveMessage, List.foldl_cons] at *
    rw [ih, dispatch_Requests]

theorem get_data_loop_Requests (env : Nat → List Notif) (i a f : Nat)
    (s : BridgeState) : (get_data_loop env i a f s).1.Requests = s.Requests := by
  induction f generalizing a s with
  | zero => rfl
  | succ f ih =>
    simp only [get_data_loop]
    split
    · rfl
    · rw [ih, receiveMessage_Requests]

theorem get_data_loop_att (env : Nat → List Notif) (i a f : Nat) (s : BridgeState) :
    (get_data_loop env i a f s).2 ≤ a + f := by
  induction f generalizing a s with
  | zero => simp [get_data_loop]
  | succ f ih =>
    simp only [get_data_loop]
    split
    · omega
    · have := ih (a + 1) (receiveMessage (env a) s)
      omega

/-- C3: `get_data` first issues the fetch, then performs at most 100 pump
iterations; it is a total function (no exception, no unbounded blocking)
returning the boolean `false` exactly when the result slot is still unset
after the attempt budget, `true` exactly when the slot was filled within
it; and the whole pump phase leaves the `Requests` registration table
exactly as `request_data` left it, so the request stays registered under
its `RequestId` and can be retried. -/
theorem C3_get_data_bounded (g : Option EnumType) (env : Nat → List Notif)
    (i : Nat) (s : BridgeState) :
    (get_data g env i s).2.2 ≤ 100 ∧
    (get_data g env i s).2.1.Requests = (request_data g i s).Requests ∧
    ((get_data g env i s).1 = false ↔ outDataAt (get_data g env i s).2.1 i = none) ∧
    ((get_data g env i s).1 = true ↔ (outDataAt (get_data g env i s).2.1 i).isSome) := by
  have hatt := get_data_loop_att env i 0 100 (request_data g i s)
  have hreq := get_data_loop_Requests env i 0 100 (request_data g i s)
  simp only [get_data]
  refine ⟨by simpa using hatt, hreq, ?_, ?_⟩ <;>
    cases houtd : outDataAt (get_data_loop env i 0 100 (request_data g i s)).1 i <;>
      simp [houtd]

/-- Once a descriptor is fully registered, iterating `request_data` on it
emits no further `AddToDataDefinition` calls, keeps both allocated ids,
and never advances the definition-id counter. -/
theorem request_data_iterate_stable (g : Option EnumType) (i : Nat) (k : Nat)
    (t : BridgeState) (e : Descriptor) (di ri : ID) (h : descAt t i = some e)
    (hdef : e.DATA_DEFINITION_ID = some di) (hreq : e.DATA_REQUEST_ID = some ri) :
    addDefCallsOf ((request_data g i)^[k] t).calls = addDefCallsOf t.calls ∧
    ((request_data g i)^[k] t)._def_id_counter = t._def_id_counter ∧
    ∃ e', descAt ((request_data g i)^[k] t) i = some e' ∧
      e'.DATA_DEFINITION_ID = some di ∧ e'.DATA_REQUEST_ID = some ri := by
  induction k generalizing t e with
  | zero => exact ⟨rfl, rfl, e, h, hdef, hreq⟩
  | succ k ih =>
    rw [Function.iterate_succ_apply]
    have hreg := request_data_registered g i t e di ri h hdef hreq
    have h1 : descAt (request_data g i t) i = some { e with outData := none } := by
      rw [hreg]
      exact get?_storeSet_self (l := t.store) (by simpa [descAt] using h)
    obtain ⟨hc, hd, e', he', hd', hr'⟩ :=
      ih (request_data g i t) { e with outData := none } h1 (by simp [hdef])
        (by simp [hreq])
    refine ⟨?_, ?_, e', he', hd', hr'⟩
    · rw [hc, hreg]
      simp [addDefCallsOf, List.filter_append, isAddDef]
    · rw [hd, hreg]

/-- C4: for every fresh descriptor `d` and every `N ≥ 1`, a sequence of
`N` `request_data(d)` calls emits exactly one `AddToDataDefinition` host
call per variable of `d` — all during the first call, each with datum type
`FLOAT64`, epsilon `0.0` and the `SIMCONNECT_UNUSED` sentinel — allocates
`d`'s `DefinitionId` exactly once (the definition-id counter advances by
exactly 1 over the whole sequence), and calls 2 … N add no
schema-registration calls. -/
theorem C4_registration_idempotent (g : Option EnumType) (i N : Nat)
    (s : BridgeState) (d : Descriptor) (h : descAt s i = some d)
    (hdef : d.DATA_DEFINITION_ID = none) (hreq : d.DATA_REQUEST_ID = none)
    (hN : 1 ≤ N) :
    addDefCallsOf ((request_data g i)^[N] s).calls =
      addDefCallsOf s.calls ++ d.definitions.map (fun nu =>
        HostCall.addToDataDefinition (s._def_id_counter + 1) nu.1 nu.2
          SC_DATATYPE.FLOAT64 0 SIMCONNECT_UNUSED) ∧
    addDefCallsOf ((request_data g i)^[N] s).calls =
      addDefCallsOf (request_data g i s).calls ∧
    ((request_data g i)^[N] s)._def_id_counter = s._def_id_counter + 1 ∧
    ∃ d', descAt ((request_data g i)^[N] s) i = some d' ∧
      d'.DATA_DEFINITION_ID = some ⟨s._def_id_counter + 1⟩ := by
  obtain ⟨m, rfl⟩ : ∃ m, N = m + 1 := ⟨N - 1, by omega⟩
  rw [Function.iterate_succ_apply]
  have hfresh := request_data_fresh g i s d h hdef hreq
  have h1 : descAt (request_data g i s) i = some { d with
      DATA_DEFINITION_ID := some ⟨s._def_id_counter + 1⟩,
      DATA_REQUEST_ID := some ⟨s._req_id_counter + 1⟩,
      outData := none } := by
    rw [hfresh]
    exact get?_storeSet_self (l := s.store) (by simpa [descAt] using h)
  obtain ⟨hc, hcnt, d', hd', hdefid, -⟩ :=
    request_data_iterate_stable g i m (request_data g i s) _ ⟨s._def_id_counter + 1⟩
      ⟨s._req_id_counter + 1⟩ h1 rfl rfl
  have hfirst : addDefCallsOf (request_data g i s).calls =
      addDefCallsOf s.calls ++ d.definitions.map (fun nu =>
        HostCall.addToDataDefinition (s._def_id_counter + 1) nu.1 nu.2
          SC_DATATYPE.FLOAT64 0 SIMCONNECT_UNUSED) := by
    rw [hfresh]
    simp only [addDefCallsOf, List.filter_append]
    simp [isAddDef, addDefCall, List.filter_map, Function.comp_def]
  refine ⟨?_, hc, ?_, d', hd', hdefid⟩
  · rw [hc, hfirst]
  · rw [hcnt, hfresh]

/-- A registration loop that fails at its `k`-th host call (counting from
the offset `j`) emits exactly the calls for the first `k` variables and
raises. -/
theorem addVarsLoop_fail (defId : Nat) (defs : List (String × String))
    (j k : Nat) (hk : k < defs.length) :
    addVarsLoop (some (j + k)) defId defs j =
      ((defs.take k).map (addDefCall defId), true) := by
  induction defs generalizing j k with
  | nil => simp at hk
  | cons nu rest ih =>
    cases k with
    | zero => simp [addVarsLoop]
    | succ k =>
      have hne : ¬ (j + (k + 1) = j) := by omega
      have hj : j + (k + 1) = (j + 1) + k := by omega
      simp only [addVarsLoop, hne, Option.some.injEq, if_neg hne, hj,
        ih (j + 1) k (by simpa using hk)]
      simp
      omega

/-- Canonical form of a first `request_data` whose registration loop
raises at variable `k`: the definition id is allocated and attached to the
descriptor *before* the loop, the first `k` variables are registered, and
the exception propagates before the request-id branch, the `outData`
clear, or the `RequestDataOnSimObjectType` call run. -/
theorem request_data_exc_fail (g : Option EnumType) (i k : Nat)
    (s : BridgeState) (d : Descriptor) (h : descAt s i = some d)
    (hdef : d.DATA_DEFINITION_ID = none) (hk : k < d.definitions.length) :
    request_data_exc g (some k) i s =
      ({ s with
        store := storeSet i { d with
          DATA_DEFINITION_ID := some ⟨s._def_id_counter + 1⟩ } s.store,
        _def_id_counter := s._def_id_counter + 1,
        calls := s.calls ++
          (d.definitions.take k).map (addDefCall (s._def_id_counter + 1)) },
       true) := by
  have hloop := addVarsLoop_fail (s._def_id_counter + 1) d.definitions 0 k hk
  simp only [Nat.zero_add] at hloop
  simp [request_data_exc, h, hdef, new_def_id, hloop]

/-- Canonical form of `request_data_exc` on a descriptor whose definition
is registered but whose request id is not yet allocated: the registration
branch is skipped entirely (so the fault oracle for the registration loop
is irrelevant), the request id is allocated and recorded, the slot is
cleared, and the fetch call is emitted — no exception. -/
theorem request_data_exc_defonly (g : Option EnumType) (failAt : Option Nat)
    (i : Nat) (s : BridgeState) (d : Descriptor) (di : ID)
    (h : descAt s i = some d) (hdef : d.DATA_DEFINITION_ID = some di)
    (hreq : d.DATA_REQUEST_ID = none) :
    request_data_exc g failAt i s =
      ({ s with
        store := storeSet i { d with
          DATA_REQUEST_ID := some ⟨s._req_id_counter + 1⟩,
          outData := none } s.store,
        Requests := dictSet (s._req_id_counter + 1) i s.Requests,
        _req_id_counter := s._req_id_counter + 1,
        calls := s.calls ++
          [HostCall.requestDataOnSimObjectType (toCarrier g (s._req_id_counter + 1))
            (toCarrier g di.value) 0] },
       false) := by
  simp [request_data_exc, h, hdef, hreq, new_request_id]

/-- C10: if the first `request_data(d)` raises from the `k`-th
`AddToDataDefinition` host call (with `k` before the end of `d`'s variable
list), the exception propagates but `d` keeps the `DATA_DEFINITION_ID`
assigned before the loop, and only the variables before the failing one
were registered; any subsequent `request_data(d)` then skips the
registration branch entirely — it raises nothing and emits no further
`AddToDataDefinition` call, so the variables after the failing one are
never registered (registration is not atomic and is not rolled back). -/
theorem C10_partial_registration (g : Option EnumType) (i k : Nat)
    (s : BridgeState) (d : Descriptor) (h : descAt s i = some d)
    (hdef : d.DATA_DEFINITION_ID = none) (hreq : d.DATA_REQUEST_ID = none)
    (hk : k < d.definitions.length) :
    (request_data_exc g (some k) i s).2 = true ∧
    descAt (request_data_exc g (some k) i s).1 i =
      some { d with DATA_DEFINITION_ID := some ⟨s._def_id_counter + 1⟩ } ∧
    (request_data_exc g (some k) i s).1.calls =
      s.calls ++ (d.definitions.take k).map (addDefCall (s._def_id_counter + 1)) ∧
    (∀ failAt₂ : Option Nat,
      (request_data_exc g failAt₂ i (request_data_exc g (some k) i s).1).2 = false ∧
      addDefCallsOf
          (request_data_exc g failAt₂ i (request_data_exc g (some k) i s).1).1.calls =
        addDefCallsOf (request_data_exc g (some k) i s).1.calls) := by
  have hfail := request_data_exc_fail g i k s d h hdef hk
  have h1 : descAt (request_data_exc g (some k) i s).1 i =
      some { d with DATA_DEFINITION_ID := some ⟨s._def_id_counter + 1⟩ } := by
    rw [hfail]
    exact get?_storeSet_self (l := s.store) (by simpa [descAt] using h)
  refine ⟨by rw [hfail], h1, by rw [hfail], ?_⟩
  intro failAt₂
  have h2 := request_data_exc_defonly g failAt₂ i (request_data_exc g (some k) i s).1
    { d with DATA_DEFINITION_ID := some ⟨s._def_id_counter + 1⟩ }
    ⟨s._def_id_counter + 1⟩ h1 rfl (by simp [hreq])
  rw [h2]
  simp [addDefCallsOf, List.filter_append, isAddDef]

/-- C6: across any interleaving of `new_def_id` and `new_request_id` calls
on one bridge instance, the returned `DefinitionId`s are strictly
increasing (hence unique, never reused), the returned `RequestId`s are
strictly increasing (hence unique, never reused), and the two kinds are
drawn from independent counters: from a fresh instance, one call of each
returns the numerically coinciding value 1 for both kinds. -/
theorem C6_handle_allocators (ops : List AllocOp) (s : BridgeState) :
    List.Pairwise (· < ·) (idsOfKind AllocOp.defOp (runAllocs ops s).1) ∧
    List.Pairwise (· < ·) (idsOfKind AllocOp.reqOp (runAllocs ops s).1) ∧
    (idsOfKind AllocOp.defOp (runAllocs ops s).1).Nodup ∧
    (idsOfKind AllocOp.reqOp (runAllocs ops s).1).Nodup ∧
    (runAllocs [AllocOp.defOp, AllocOp.reqOp] initState).1 =
      [(AllocOp.defOp, 1), (AllocOp.reqOp, 1)] := by
  refine ⟨?_, ?_, ?_, ?_, rfl⟩ <;>
    simp [runAllocs_def_ids, runAllocs_req_ids, List.pairwise_lt_range',
      List.nodup_range']

/-- C7: every `map_to_sim_event` call returns the current event counter and
advances it, and emits exactly one `MapClientEventToSimEvent` host call;
two successive calls with the identical name return two different
`EventId`s — the name-to-id mapping is not deduplicated. -/
theorem C7_map_to_sim_event_no_dedup (g : Option EnumType) (name : String)
    (s : BridgeState) :
    (map_to_sim_event g name s).1 = s._evt_id_counter ∧
    (map_to_sim_event g name (map_to_sim_event g name s).2).1 =
      s._evt_id_counter + 1 ∧
    (map_to_sim_event g name s).1 ≠
      (map_to_sim_event g name (map_to_sim_event g name s).2).1 ∧
    mapEventCallCount (map_to_sim_event g name s).2.calls =
      mapEventCallCount s.calls + 1 ∧
    mapEventCallCount (map_to_sim_event g name (map_to_sim_event g name s).2).2.calls =
      mapEventCallCount s.calls + 2 := by
  simp [map_to_sim_event, mapEventCallCount, List.filter_append]

/-- C1 (code bug): run `connect()` with a successful channel construction
and an empty notification queue, so the 3-second confirmation wait expires
with neither an open-confirmation nor a rejection.  The call returns
normally (`raisedError = false`) and only logs the warning
(`warned = true`), as the claim says — but the caller-visible ready flag
stays `false`: the source's own comment on the timeout path says
"We set ok=True anyway", yet the assignment `self.ok = True` right under
it is commented out, so the code contradicts its stated intent and the
claim's "ok is set true" fails. -/
theorem C1_timeout_leaves_ok_false :
    (connect (fun _ => []) true initState).raisedError = false ∧
    (connect (fun _ => []) true initState).warned = true ∧
    (connect (fun _ => []) true initState).state.ok = false :=
  ⟨rfl, rfl, rfl⟩

/-- C8: `exit()` sets the quit flag and clears the channel reference from
any state; it emits a `Dispose` host call exactly when a channel is held
(in particular a second `exit`, or an `exit` on a never-connected bridge,
disposes nothing), and `exit` after `exit` leaves the state exactly as a
single `exit` (idempotence; the function is total, so no error is
raised). -/
theorem C8_exit_idempotent (s : BridgeState) :
    (exit s).quit = 1 ∧ (exit s).simconnect = none ∧
    disposeCount (exit s).calls =
      disposeCount s.calls + (if s.simconnect.isSome then 1 else 0) ∧
    exit (exit s) = exit s := by
  cases s with
  | mk store Requests quit ok simconnect dc rc ec gc calls =>
    cases simconnect <;> simp [exit, disposeCount, List.filter_append]

theorem insertDesc_perm (x : Option Nat × String) (l : List (Option Nat × String)) :
    (insertDesc x l).Perm (x :: l) := by
  induction l with
  | nil => simp [insertDesc]
  | cons y ys ih =>
    rw [insertDesc]
    split
    · exact List.Perm.refl _
    · exact (ih.cons y).trans (List.Perm.swap x y ys)

theorem insertDesc_sorted (x : Option Nat × String) (l : List (Option Nat × String))
    (h : List.Pairwise (fun a b => versionKey b.1 ≤ versionKey a.1) l) :
    List.Pairwise (fun a b => versionKey b.1 ≤ versionKey a.1) (insertDesc x l) := by
  induction l with
  | nil => simp [insertDesc]
  | cons y ys ih =>
    rw [List.pairwise_cons] at h
    obtain ⟨hy, hys⟩ := h
    rw [insertDesc]
    split
    · rename_i hlt
      refine List.pairwise_cons.mpr ⟨?_, List.pairwise_cons.mpr ⟨hy, hys⟩⟩
      intro z hz
      rcases List.mem_cons.mp hz with rfl | hz'
      · omega
      · have := hy z hz'
        omega
    · rename_i hlt
      refine List.pairwise_cons.mpr ⟨?_, ih hys⟩
      intro z hz
      rcases List.mem_cons.mp ((insertDesc_perm x ys).mem_iff.mp hz) with rfl | hz'
      · omega
      · exact hy z hz'

theorem foldl_insertDesc_perm (sp : List (Option Nat × String))
    (acc : List (Option Nat × String)) :
    (sp.foldl (fun a x => insertDesc x a) acc).Perm (acc ++ sp) := by
  induction sp generalizing acc with
  | nil => simp
  | cons x rest ih =>
    simp only [List.foldl_cons]
    refine (ih (insertDesc x acc)).trans ?_
    refine (List.Perm.append_right rest ((insertDesc_perm x acc))).trans ?_
    exact List.perm_middle.symm

theorem sortDescVersion_perm (sp : List (Option Nat × String)) :
    (sortDescVersion sp).Perm sp := by
  simpa [sortDescVersion] using foldl_insertDesc_perm sp []

theorem sortDescVersion_sorted (sp : List (Option Nat × String)) :
    List.Pairwise (fun a b => versionKey b.1 ≤ versionKey a.1) (sortDescVersion sp) := by
  have main : ∀ (l acc : List (Option Nat × String)),
      List.Pairwise (fun a b => versionKey b.1 ≤ versionKey a.1) acc →
      List.Pairwise (fun a b => versionKey b.1 ≤ versionKey a.1)
        (l.foldl (fun a x => insertDesc x a) acc) := by
    intro l
    induction l with
    | nil => intro acc hacc; exact hacc
    | cons x rest ih =>
      intro acc hacc
      exact ih (insertDesc x acc) (insertDesc_sorted x acc hacc)
  exact main sp [] (by simp)

/-- Membership of a path string in one filtered block of the candidate
list, under distinctness of the discovered path strings. -/
theorem mem_filter_map_snd (q : Option Nat × String → Bool)
    (sp : List (Option Nat × String)) (x : Option Nat × String)
    (hnd : (sp.map (fun y => y.2)).Nodup) (hx : x ∈ sp) :
    (x.2 ∈ (sp.filter q).map (fun y => y.2)) ↔ q x = true := by
  constructor
  · intro h
    obtain ⟨y, hy, hy2⟩ := List.mem_map.mp h
    have hyf := List.mem_filter.mp hy
    have heq : y = x := List.inj_on_of_nodup_map hnd hyf.1 hx hy2
    rw [← heq]
    exact hyf.2
  · intro h
    exact List.mem_map.mpr ⟨x, List.mem_filter.mpr ⟨hx, h⟩, rfl⟩

/-- The appending pass of `_load_dll`, under distinct path strings and a
characterization `P` of which paths are already in the accumulator:
it appends, in discovery order, exactly the paths satisfying the pass
predicate and not yet present. -/
theorem passAppend_eq (pred P : Option Nat × String → Bool)
    (sp : List (Option Nat × String)) (acc : List String)
    (hnd : (sp.map (fun x => x.2)).Nodup)
    (hmem : ∀ x ∈ sp, (x.2 ∈ acc ↔ P x = true)) :
    passAppend pred sp acc =
      acc ++ (sp.filter (fun x => pred x ∧ ¬ P x)).map (fun x => x.2) := by
  induction sp generalizing acc with
  | nil => simp [passAppend]
  | cons x rest ih =>
    rw [List.map_cons, List.nodup_cons] at hnd
    obtain ⟨hx2, hndr⟩ := hnd
    have hy2ne : ∀ y ∈ rest, y.2 ≠ x.2 := by
      intro y hy hcontra
      exact hx2 (hcontra ▸ List.mem_map.mpr ⟨y, hy, rfl⟩)
    by_cases hp : pred x = true
    · by_cases hin : x.2 ∈ acc
      · have hP : P x = true := (hmem x (by simp)).mp hin
        rw [passAppend, if_neg (by simp [hin])]
        rw [ih acc hndr (fun y hy => hmem y (by simp [hy]))]
        simp [List.filter_cons, hp, hP]
      · have hP : ¬ P x = true := fun hc => hin ((hmem x (by simp)).mpr hc)
        rw [passAppend, if_pos ⟨hp, hin⟩]
        rw [ih (acc ++ [x.2]) hndr ?hm]
        · simp [List.filter_cons, hp, hP]
        case hm =>
          intro y hy
          rw [List.mem_append]
          constructor
          · intro hyin
            rcases hyin with h1 | h2
            · exact (hmem y (by simp [hy])).mp h1
            · exact absurd (by simpa using h2) (hy2ne y hy)
          · intro hPy
            exact Or.inl ((hmem y (by simp [hy])).mpr hPy)
    · rw [passAppend, if_neg (by simp [hp])]
      rw [ih acc hndr (fun y hy => hmem y (by simp [hy]))]
      simp [List.filter_cons, hp]

/-- C5 counterexample: request version 5 with two discovered candidates,
one untagged and one tagged v6, so there are no override (v4) and no
exact-match (v5) entries and the claim's "remaining candidates appear in
descending version order" would force the output `["pA", "pB"]`
(v6 before the untagged candidate, exactly the no-version ordering).  The
code instead returns the candidates in discovery order, `["pB", "pA"]`. -/
theorem C5_order_counterexample :
    order_paths (some 5) [(none, "pB"), (some 6, "pA")] = ["pB", "pA"] ∧
    (sortDescVersion [(none, "pB"), (some 6, "pA")]).map (fun x => x.2) =
      ["pA", "pB"] ∧
    ¬ ((["pB", "pA"] : List String) = ["pA", "pB"]) :=
  ⟨rfl, rfl, by decide⟩

/-- C5 (amended): when version 5 is requested, the candidate list is the
v4-tagged paths (the compatibility override), then the v5-tagged paths
(exact matches), then all remaining candidates **in discovery order** (not
in descending version order); when no version is requested or detected,
all candidates appear stably sorted by descending version (untagged
counting as version 0).  Stated under distinctness of the discovered path
strings. -/
theorem C5_order_paths_amended (sp : List (Option Nat × String))
    (hnd : (sp.map (fun x => x.2)).Nodup) :
    order_paths (some 5) sp =
      (sp.filter (fun x => x.1 = some 4)).map (fun x => x.2) ++
      (sp.filter (fun x => x.1 = some 5)).map (fun x => x.2) ++
      (sp.filter (fun x => ¬ x.1 = some 4 ∧ ¬ x.1 = some 5)).map (fun x => x.2) ∧
    (order_paths none sp).Perm (sp.map (fun x => x.2)) ∧
    order_paths none sp = (sortDescVersion sp).map (fun x => x.2) ∧
    List.Pairwise (fun a b => versionKey b.1 ≤ versionKey a.1) (sortDescVersion sp) := by
  refine ⟨?_, ?_, rfl, sortDescVersion_sorted sp⟩
  · have h2 := passAppend_eq (fun x => x.1 = some 5) (fun x => x.1 = some 4) sp
      ((sp.filter (fun x => x.1 = some 4)).map (fun x => x.2)) hnd
      (fun x hx => mem_filter_map_snd (fun y => y.1 = some 4) sp x hnd hx)
    have h2' : passAppend (fun x => x.1 = some 5) sp
        ((sp.filter (fun x => x.1 = some 4)).map (fun x => x.2)) =
        (sp.filter (fun x => x.1 = some 4)).map (fun x => x.2) ++
        (sp.filter (fun x => x.1 = some 5)).map (fun x => x.2) := by
      rw [h2]
      congr 1
      congr 1
      apply List.filter_congr
      intro x hx
      by_cases h5 : x.1 = some 5 <;> by_cases h4 : x.1 = some 4 <;>
        simp_all
    have h3 := passAppend_eq (fun _ => true)
      (fun x => decide (x.1 = some 4) || decide (x.1 = some 5)) sp
      ((sp.filter (fun x => x.1 = some 4)).map (fun x => x.2) ++
        (sp.filter (fun x => x.1 = some 5)).map (fun x => x.2)) hnd ?hmem3
    case hmem3 =>
      intro x hx
      rw [List.mem_append, mem_filter_map_snd (fun y => y.1 = some 4) sp x hnd hx,
        mem_filter_map_snd (fun y => y.1 = some 5) sp x hnd hx]
      simp
    have h3' : (sp.filter (fun x =>
        (fun _ => true) x ∧ ¬ ((decide (x.1 = some 4) || decide (x.1 = some 5)) = true))) =
        sp.filter (fun x => ¬ x.1 = some 4 ∧ ¬ x.1 = some 5) := by
      apply List.filter_congr
      intro x hx
      by_cases h5 : x.1 = some 5 <;> by_cases h4 : x.1 = some 4 <;> simp_all
    have hop : order_paths (some 5) sp =
        passAppend (fun _ => true) sp
          (passAppend (fun x => x.1 = some 5) sp
            ((sp.filter (fun x => x.1 = some 4)).map (fun x => x.2))) := by
      simp [order_paths, versionTruthy]
    rw [hop, h2', h3, h3']
  · simpa [order_paths, versionTruthy] using
      ((sortDescVersion_perm sp).map (fun x => x.2))

/-- C9 counterexample: the dynamic enum type actually created by
`_create_event_enum` (`for i in range(100): eb.DefineLiteral(...)`) is
pre-populated with exactly 100 literal members, not "hundreds" (read as at
least 200): the claim's population size is wrong at the one concrete enum
the code ever builds. -/
theorem C9_enum_population_counterexample :
    (_create_event_enum true).map (fun e => e.literals.length) = some 100 ∧
    ¬ (200 ≤ 100) :=
  ⟨rfl, by omega⟩

/-- C9 (amended): the identifier carrier type is created at most once per
process — whenever the class-level slot already holds a type, construction
reuses it unchanged, and the first construction stores exactly what
`_create_event_enum` builds: a dynamic enum pre-populated with exactly 100
distinct literal members.  Every handle conversion wraps the handle in the
shared dynamic type, and only when the dynamic type could not be created
(the slot is `none`) does conversion fall back to the host enumeration
`SIMCONNECT_PERIOD` as carrier. -/
theorem C9_enum_singleton_amended (c : Bool) (t : EnumType) (v : Nat) :
    initEventEnumType c (some t) = some t ∧
    initEventEnumType true none = _create_event_enum true ∧
    initEventEnumType false none = none ∧
    toCarrier (some t) v = CarrierValue.dyn t v ∧
    toCarrier none v = CarrierValue.period v ∧
    (∀ e ∈ _create_event_enum true, e.literals.length = 100 ∧ e.literals.Nodup) := by
  refine ⟨rfl, rfl, rfl, rfl, rfl, ?_⟩
  intro e he
  have he' : e = EnumType.mk "ClientEventID"
      ((List.range 100).map (fun i => ("EVENT_" ++ toString i, i))) := by
    exact (by simpa [_create_event_enum] using he : _ = e).symm
  subst he'
  refine ⟨by simp, ?_⟩
  have hsnd : (((List.range 100).map
      (fun i => (("EVENT_" ++ toString i : String), i))).map Prod.snd).Nodup := by
    simp [List.map_map, Function.comp_def, List.nodup_range]
  exact hsnd.of_map Prod.snd

/-! ### Concrete witnesses -/

/-- A concrete two-variable descriptor (the spec's worked example). -/
def sampleDescriptor : Descriptor :=
  { definitions := [("AIRSPEED", "knots"), ("ALTITUDE", "feet")] }

/-- A bridge state holding `sampleDescriptor` at heap index 0. -/
def sampleState : BridgeState :=
  { store := [sampleDescriptor] }

/-- C2 at a concrete input: fetch the two-variable descriptor, then deliver
value 250 under the allocated request id 1 and observe it in the slot. -/
theorem C2_delivery_roundtrip_witness :
    descAt sampleState 0 = some sampleDescriptor ∧
    sampleDescriptor.DATA_DEFINITION_ID = none ∧
    sampleDescriptor.DATA_REQUEST_ID = none ∧
    dictGet 1 (request_data none 0 sampleState).Requests = some 0 ∧
    outDataAt (request_data none 0 sampleState) 0 = none ∧
    outDataAt (on_recv_simobject_data 1 250 (request_data none 0 sampleState)) 0 =
      some 250 :=
  ⟨rfl, rfl, rfl,
    (C2_delivery_roundtrip none 0 sampleState sampleDescriptor 250 rfl rfl rfl).1,
    (C2_delivery_roundtrip none 0 sampleState sampleDescriptor 250 rfl rfl rfl).2.1,
    (C2_delivery_roundtrip none 0 sampleState sampleDescriptor 250 rfl rfl rfl).2.2.1⟩

/-- C4 at a concrete input: two `request_data` calls on the two-variable
descriptor emit exactly one `AddToDataDefinition` per variable and advance
the definition-id counter exactly once. -/
theorem C4_registration_idempotent_witness :
    descAt sampleState 0 = some sampleDescriptor ∧ 1 ≤ 2 ∧
    addDefCallsOf ((request_data none 0)^[2] sampleState).calls =
      [HostCall.addToDataDefinition 1 "AIRSPEED" "knots" SC_DATATYPE.FLOAT64 0
        SIMCONNECT_UNUSED,
       HostCall.addToDataDefinition 1 "ALTITUDE" "feet" SC_DATATYPE.FLOAT64 0
        SIMCONNECT_UNUSED] ∧
    ((request_data none 0)^[2] sampleState)._def_id_counter = 1 :=
  ⟨rfl, by omega,
    by exact (C4_registration_idempotent none 0 2 sampleState sampleDescriptor
      rfl rfl rfl (by omega)).1,
    by exact (C4_registration_idempotent none 0 2 sampleState sampleDescriptor
      rfl rfl rfl (by omega)).2.2.1⟩

/-- C10 at a concrete input: the first fetch fails at the second
`AddToDataDefinition` (index 1), leaving only `AIRSPEED` registered; a
second fetch raises nothing and registers no further variable. -/
theorem C10_partial_registration_witness :
    descAt sampleState 0 = some sampleDescriptor ∧
    1 < sampleDescriptor.definitions.length ∧
    (request_data_exc none (some 1) 0 sampleState).2 = true ∧
    (request_data_exc none (some 1) 0 sampleState).1.calls =
      [HostCall.addToDataDefinition 1 "AIRSPEED" "knots" SC_DATATYPE.FLOAT64 0
        SIMCONNECT_UNUSED] ∧
    (request_data_exc none none 0 (request_data_exc none (some 1) 0 sampleState).1).2 =
      false ∧
    addDefCallsOf
        (request_data_exc none none 0
          (request_data_exc none (some 1) 0 sampleState).1).1.calls =
      [HostCall.addToDataDefinition 1 "AIRSPEED" "knots" SC_DATATYPE.FLOAT64 0
        SIMCONNECT_UNUSED] :=
  ⟨rfl, by decide,
    (C10_partial_registration none 0 1 sampleState sampleDescriptor rfl rfl rfl
      (by decide)).1,
    by exact (C10_partial_registration none 0 1 sampleState sampleDescriptor rfl rfl rfl
      (by decide)).2.2.1,
    (C10_partial_registration none 0 1 sampleState sampleDescriptor rfl rfl rfl
      (by decide)).2.2.2 none |>.1,
    by exact (C10_partial_registration none 0 1 sampleState sampleDescriptor rfl rfl rfl
      (by decide)).2.2.2 none |>.2⟩

/-- C5 (amended) at a concrete input: four distinct candidates, one per
tag class; with version 5 requested the v4 override leads, then the v5
exact match, then the rest in discovery order (v6 before untagged); with
no version, all four in descending version order. -/
theorem C5_order_paths_amended_witness :
    (([(some 6, "p6"), (none, "p0"), (some 4, "p4"), (some 5, "p5")].map
      (fun x => x.2)).Nodup) ∧
    order_paths (some 5) [(some 6, "p6"), (none, "p0"), (some 4, "p4"), (some 5, "p5")] =
      ["p4", "p5", "p6", "p0"] ∧
    order_paths none [(some 6, "p6"), (none, "p0"), (some 4, "p4"), (some 5, "p5")] =
      ["p6", "p5", "p4", "p0"] :=
  ⟨by decide,
    by exact (C5_order_paths_amended
      [(some 6, "p6"), (none, "p0"), (some 4, "p4"), (some 5, "p5")] (by decide)).1,
    by exact (C5_order_paths_amended
      [(some 6, "p6"), (none, "p0"), (some 4, "p4"), (some 5, "p5")] (by decide)).2.2.1⟩

end P3DSimConnect
